import Mathlib

/-!
Verification of the AI-GPT-Prompt-Enhancer background service worker
(`background.js`, `content.js`) against its natural-language design spec.

Strings are modelled as lists of characters (`Str`), mirroring the
JavaScript string values manipulated by the code.  `String.prototype.includes`
on a lower-cased receiver is modelled by `ci`, `String.prototype.trim` by
`trimStr`, and `Math.round` on the nonnegative rationals produced by the
improvement formula by `jsRound`.  All definitions are translated from the
repository's source; the relevant functions are `processEnhancement`,
`enhanceClarityLogic`, `addContextLogic`, `improveStructureLogic`,
`handlePromptEnhancement`, `logUsage` and `cleanupOldUsageData`.
-/

/-- JavaScript string values: a sequence of characters. -/
abbrev Str := List Char

/-- Character-wise lower-casing, modelling `String.prototype.toLowerCase`
(the guard phrases in the source are all ASCII, where `Char.toLower`
agrees with the JS behaviour). -/
def lowerStr (s : Str) : Str := s.map Char.toLower

/-- Does `s` start with `pat`?  Models the head-of-string comparison used
to define substring search. -/
def isPre : Str → Str → Bool
  | [], _ => true
  | _ :: _, [] => false
  | a :: ps, b :: ss => a == b && isPre ps ss

/-- Does `s` contain `pat` as a contiguous substring?  Models
`String.prototype.includes pat s`. -/
def isSub (pat : Str) : Str → Bool
  | [] => pat.isEmpty
  | b :: t => isPre pat (b :: t) || isSub pat t

/-- Does `s` end with `pat`? -/
def isSuf (pat s : Str) : Bool := isPre pat.reverse s.reverse

/-- Case-insensitive containment check, modelling the pervasive source
idiom `enhanced.toLowerCase().includes(pat)` (each `pat` in the source is
a lower-case literal). -/
def ci (s pat : Str) : Bool := isSub pat (lowerStr s)

/- Fixed phrases of the rewriting pipeline, verbatim from `background.js`. -/

def gPlease : Str := "please".toList
def gCouldYou : Str := "could you".toList
def gFormat : Str := "format".toList
def gOutput : Str := "output".toList
def gAsA : Str := "as a".toList
def gActingAs : Str := "acting as".toList
def gFor : Str := "for".toList
def gTargeting : Str := "targeting".toList
def gList : Str := "list".toList
def gBullet : Str := "bullet".toList
def gStep : Str := "step".toList
def gSummary : Str := "summary".toList
def gConclusion : Str := "conclusion".toList

def sPleasePre : Str := "Please ".toList
def sClarityClose : Str := "\n\nPlease provide a clear, well-structured response.".toList
def sContextPre : Str := "As an AI assistant with expertise in this area, ".toList
def sContextClose : Str := "\n\nPlease explain this in a way that would be helpful for someone learning about this topic.".toList
def sStructOrganize : Str := "\n\nPlease organize your response with clear sections, bullet points, or numbered steps where appropriate.".toList
def sStructSummary : Str := "\n\nPlease provide a brief summary or key takeaways at the end.".toList

/-- First conditional of `enhanceClarityLogic`: prepend "Please " unless
"please" or "could you" already occurs (case-insensitively). -/
def clarityPrepend (prompt : Str) : Str :=
  if !(ci prompt gPlease || ci prompt gCouldYou) then sPleasePre ++ prompt else prompt

/-- Second conditional of `enhanceClarityLogic`: append the closing
sentence unless "format" or "output" occurs in the (possibly already
prefixed) text. -/
def clarityAppend (e : Str) : Str :=
  if !(ci e gFormat || ci e gOutput) then e ++ sClarityClose else e

/-- First conditional of `addContextLogic`. -/
def contextPrepend (prompt : Str) : Str :=
  if !(ci prompt gAsA || ci prompt gActingAs) then sContextPre ++ prompt else prompt

/-- Second conditional of `addContextLogic`. -/
def contextAppend (e : Str) : Str :=
  if !(ci e gFor || ci e gTargeting) then e ++ sContextClose else e

/-- First conditional of `improveStructureLogic`. -/
def structAppendOrganize (prompt : Str) : Str :=
  if !(ci prompt gList || ci prompt gBullet || ci prompt gStep)
  then prompt ++ sStructOrganize else prompt

/-- Second conditional of `improveStructureLogic`. -/
def structAppendSummary (e : Str) : Str :=
  if !(ci e gSummary || ci e gConclusion) then e ++ sStructSummary else e

/-- The `try { ... } catch { return prompt }` shape shared by the three
step functions in `background.js`: run the step's body; on an exception,
return the input unchanged. -/
def stepWithCatch (body : Str → Except Str Str) (prompt : Str) : Str :=
  match body prompt with
  | Except.ok r => r
  | Except.error _ => prompt

/-- Body of `enhanceClarityLogic`'s `try` block (pure string operations;
never raises). -/
def enhanceClarityBody (prompt : Str) : Except Str Str :=
  Except.ok (clarityAppend (clarityPrepend prompt))

/-- Body of `addContextLogic`'s `try` block. -/
def addContextBody (prompt : Str) : Except Str Str :=
  Except.ok (contextAppend (contextPrepend prompt))

/-- Body of `improveStructureLogic`'s `try` block. -/
def improveStructureBody (prompt : Str) : Except Str Str :=
  Except.ok (structAppendSummary (structAppendOrganize prompt))

/-- `enhanceClarityLogic` from `background.js`. -/
def enhanceClarityLogic (prompt : Str) : Str :=
  stepWithCatch enhanceClarityBody prompt

/-- `addContextLogic` from `background.js`. -/
def addContextLogic (prompt : Str) : Str :=
  stepWithCatch addContextBody prompt

/-- `improveStructureLogic` from `background.js`. -/
def improveStructureLogic (prompt : Str) : Str :=
  stepWithCatch improveStructureBody prompt

/-- The three option flags of an enhancement request
(`options.enhanceClarity`, `options.addContext`, `options.improveStructure`). -/
structure Options where
  enhanceClarity : Bool
  addContext : Bool
  improveStructure : Bool
deriving DecidableEq

/-- The sequence of step applications inside `processEnhancement`'s
`try` block. -/
def processEnhancementSteps (prompt : Str) (o : Options) : Str :=
  let e1 := if o.enhanceClarity then enhanceClarityLogic prompt else prompt
  let e2 := if o.addContext then addContextLogic e1 else e1
  if o.improveStructure then improveStructureLogic e2 else e2

/-- Error message thrown by `processEnhancement`'s `catch` branch. -/
def procErrMsg : Str := "Failed to process prompt enhancement".toList

/-- The `try { ... } catch { throw ... }` structure of a fallible call:
forward a success, map any failure to the handler's result. -/
def tryHandle (x : Except Str Str) (h : Str → Except Str Str) : Except Str Str :=
  match x with
  | Except.ok a => Except.ok a
  | Except.error e => h e

/-- `processEnhancement` from `background.js`, with its exception channel
made explicit: the `try` block evaluates the (total) step functions and
the `catch` branch re-throws a fixed error. -/
def processEnhancementE (prompt : Str) (o : Options) : Except Str Str :=
  tryHandle (Except.ok (processEnhancementSteps prompt o))
    (fun _ => Except.error procErrMsg)

/-- The value returned by `processEnhancement` on the (always taken)
non-throwing path. -/
def processEnhancement (prompt : Str) (o : Options) : Str :=
  processEnhancementSteps prompt o

/-- JS whitespace as removed by `String.prototype.trim` (ASCII whitespace
plus the common Unicode space/line separators and BOM). -/
def isJsWhite (c : Char) : Bool :=
  c == ' ' || c == '\t' || c == '\n' || c == '\r' || c == '\x0b' || c == '\x0c' ||
  c == '\u00a0' || c == '\u2028' || c == '\u2029' || c == '\ufeff'

/-- `String.prototype.trim`: drop whitespace from both ends. -/
def trimStr (s : Str) : Str :=
  ((s.dropWhile isJsWhite).reverse.dropWhile isJsWhite).reverse

/-- Per-request statistics in the handler's success response. -/
structure Stats where
  originalLength : Nat
  enhancedLength : Nat
  improvement : Int
deriving DecidableEq

/-- Shape of the object passed to `sendResponse` by the background
message handler. -/
structure Response where
  success : Bool
  enhancedPrompt : Option Str
  stats : Option Stats
  error : Option Str
deriving DecidableEq

/-- `Math.round` on the rational value of the improvement formula
(round half toward positive infinity). -/
def jsRound (q : ℚ) : Int := ⌊q + 1 / 2⌋

/-- Error string of the handler's empty-prompt rejection branch. -/
def errNoPrompt : Str := "No prompt provided".toList

/-- `handlePromptEnhancement` from `background.js`, as the response value
it passes to `sendResponse`.  The guard `!prompt || !prompt.trim()`
rejects exactly the prompts that are empty or trim to empty; otherwise
the enhanced prompt and length statistics are returned.  The usage-log
write is a storage side effect modelled separately by `logUsage`, and
the retry path concerns only storage failures, which the pure response
computation cannot raise. -/
def handlePromptEnhancement (prompt : Str) (options : Options) : Response :=
  if prompt = [] ∨ trimStr prompt = [] then
    { success := false, enhancedPrompt := none, stats := none, error := some errNoPrompt }
  else
    { success := true,
      enhancedPrompt := some (processEnhancement prompt options),
      stats := some
        { originalLength := prompt.length,
          enhancedLength := (processEnhancement prompt options).length,
          improvement := jsRound
            ((((processEnhancement prompt options).length : ℚ) - (prompt.length : ℚ))
              / (prompt.length : ℚ) * 100) },
      error := none }

/-- Fallback prompt sent by the content script's modal flow. -/
def helloWorld : Str := "Hello world".toList

/-- The prompt field sent by `content.js`'s `enhancePrompt`:
`promptInput.value.trim() || 'Hello world'`. -/
def modalPrompt (v : Str) : Str :=
  if trimStr v = [] then helloWorld else trimStr v

/-- Payload object recorded with a usage event (a JSON-like bag of
key-value pairs; its contents are irrelevant to the verified claims). -/
abbrev LogData := List (Str × Nat)

/-- One element of a per-action event list: `{ timestamp, data }`. -/
structure Entry where
  timestamp : Nat
  data : LogData
deriving DecidableEq

/-- The persistent `chrome.storage.local` keys touched by the analytics
code.  The counters are read with `|| 0`, so an absent key behaves as 0
and is modelled as 0. -/
structure StorageState where
  usageStats : List (Str × List Entry)
  totalPrompts : Nat
  totalEnhancements : Nat
  lastUpdated : Nat
deriving DecidableEq

/-- Read a per-action list from the `usageStats` object (absent key
reads as the empty list, matching `usageStats[action] || []` via the
`if (!usageStats[action])` initialisation). -/
def getAction : List (Str × List Entry) → Str → List Entry
  | [], _ => []
  | kv :: t, a => if kv.1 = a then kv.2 else getAction t a

/-- Write a per-action list into the `usageStats` object. -/
def setAction : List (Str × List Entry) → Str → List Entry → List (Str × List Entry)
  | [], a, v => [(a, v)]
  | kv :: t, a, v => if kv.1 = a then (a, v) :: t else kv :: setAction t a v

/-- `CONFIG.maxStorageEntries`. -/
def maxStorageEntries : Nat := 100

/-- `CONFIG.dataRetentionDays`. -/
def dataRetentionDays : Nat := 30

/-- Milliseconds per day, as in `background.js`'s cutoff computation. -/
def msPerDay : Nat := 24 * 60 * 60 * 1000

/-- The action string logged for a successful enhancement. -/
def peAction : Str := "prompt_enhanced".toList

/-- `logUsage` from `background.js` as a storage-state transformer
(`Date.now()` passed in as `timestamp`): push the new event, cap the
per-action list at the last `maxStorageEntries` entries via
`slice(-maxStorageEntries)`, and bump both counters exactly on the
`prompt_enhanced` action. -/
def logUsage (st : StorageState) (action : Str) (d : LogData) (timestamp : Nat) : StorageState :=
  let pushed := getAction st.usageStats action ++ [{ timestamp := timestamp, data := d }]
  let entries := if maxStorageEntries < pushed.length
                 then pushed.drop (pushed.length - maxStorageEntries) else pushed
  { usageStats := setAction st.usageStats action entries,
    totalPrompts := if action = peAction then st.totalPrompts + 1 else st.totalPrompts,
    totalEnhancements := if action = peAction then st.totalEnhancements + 1 else st.totalEnhancements,
    lastUpdated := timestamp }

/-- Storage before any usage has been logged: no keys present. -/
def initialState : StorageState :=
  { usageStats := [], totalPrompts := 0, totalEnhancements := 0, lastUpdated := 0 }

/-- Run a sequence of `logUsage` calls (action, data, timestamp). -/
def applyCalls (st : StorageState) (calls : List (Str × LogData × Nat)) : StorageState :=
  calls.foldl (fun acc c => logUsage acc c.1 c.2.1 c.2.2) st

/-- `cleanupOldUsageData` from `background.js` (`Date.now()` passed in as
`now`): filter every per-action list down to entries strictly newer than
the 30-day cutoff and delete keys whose list became empty — but persist
the result only when the `cleaned` flag was set, and that flag is set
only when some key was deleted.  When no list empties, nothing is
written back and the stored state is unchanged. -/
def cleanupOldUsageData (st : StorageState) (now : Nat) : StorageState :=
  let cutoff := now - dataRetentionDays * msPerDay
  let filtered := st.usageStats.map (fun kv => (kv.1, kv.2.filter (fun e => cutoff < e.timestamp)))
  let cleaned := filtered.any (fun kv => kv.2.isEmpty)
  if cleaned then
    { st with usageStats := filtered.filter (fun kv => !kv.2.isEmpty) }
  else st

/-- Concrete stale event for the cleanup analysis: logged at epoch 0. -/
def staleEntry : Entry := { timestamp := 0, data := [] }

/-- Concrete fresh event: logged at the cleanup time used below. -/
def freshEntry : Entry := { timestamp := 2678400000, data := [] }

/-- Storage holding one expired and one fresh event under one action. -/
def staleState : StorageState :=
  { usageStats := [(peAction, [staleEntry, freshEntry])],
    totalPrompts := 2, totalEnhancements := 2, lastUpdated := 2678400000 }

/-- C2: with all three options false, `processEnhancement` returns its
input unchanged (identity). -/
theorem processEnhancement_id_of_no_options (s : Str) :
    processEnhancement s ⟨false, false, false⟩ = s := rfl

/-- C7: on "summarize this article" with only `enhanceClarity` set, the
result starts with "Please summarize this article" and ends with the
fixed clarity-closing sentence. -/
theorem clarity_example_summarize :
    isPre ("Please summarize this article".toList)
        (processEnhancement ("summarize this article".toList) ⟨true, false, false⟩) = true ∧
      isSuf sClarityClose
        (processEnhancement ("summarize this article".toList) ⟨true, false, false⟩) = true := by
  decide

/-! ### Helper lemmas about the substring and trimming primitives -/

theorem isPre_append (pat s u : Str) (h : isPre pat s = true) :
    isPre pat (s ++ u) = true := by
  induction pat generalizing s with
  | nil => rfl
  | cons a ps ih =>
    cases s with
    | nil => simp [isPre] at h
    | cons b ss =>
      rw [List.cons_append]
      simp only [isPre, Bool.and_eq_true] at h ⊢
      exact ⟨h.1, ih ss h.2⟩

theorem isSub_nil (u : Str) : isSub [] u = true := by
  induction u with
  | nil => rfl
  | cons b t ih => simp [isSub, isPre]

theorem isSub_append_right (pat s u : Str) (h : isSub pat s = true) :
    isSub pat (s ++ u) = true := by
  induction s with
  | nil =>
    have hp : pat = [] := by simpa [isSub] using h
    subst hp
    exact isSub_nil u
  | cons b t ih =>
    rw [List.cons_append]
    simp only [isSub, Bool.or_eq_true] at h ⊢
    rcases h with h1 | h2
    · left
      have := isPre_append pat (b :: t) u h1
      rwa [List.cons_append] at this
    · right
      exact ih h2

theorem isSub_append_left (pat u s : Str) (h : isSub pat s = true) :
    isSub pat (u ++ s) = true := by
  induction u with
  | nil => simpa using h
  | cons a t ih =>
    rw [List.cons_append]
    simp only [isSub, Bool.or_eq_true]
    right
    exact ih

theorem ci_append_right (s u pat : Str) (h : ci s pat = true) :
    ci (s ++ u) pat = true := by
  unfold ci lowerStr at h ⊢
  rw [List.map_append]
  exact isSub_append_right _ _ _ h

theorem ci_append_left (s u pat : Str) (h : ci s pat = true) :
    ci (u ++ s) pat = true := by
  unfold ci lowerStr at h ⊢
  rw [List.map_append]
  exact isSub_append_left _ _ _ h

theorem dropWhile_nil_of_all (p : Char → Bool) (s : Str)
    (h : ∀ c ∈ s, p c = true) : s.dropWhile p = [] := by
  induction s with
  | nil => rfl
  | cons a t ih =>
    rw [List.dropWhile_cons, if_pos (h a (List.mem_cons_self a t))]
    exact ih fun c hc => h c (List.mem_cons_of_mem a hc)

theorem mem_dropWhile_of_not (p : Char → Bool) (c : Char) (h : p c = false)
    (s : Str) (hc : c ∈ s) : c ∈ s.dropWhile p := by
  induction s with
  | nil => cases hc
  | cons a t ih =>
    rw [List.dropWhile_cons]
    rcases List.mem_cons.mp hc with rfl | hmem
    · rw [h]
      simp
    · split
      · exact ih hmem
      · exact List.mem_cons_of_mem a hmem

theorem mem_trimStr (c : Char) (h : isJsWhite c = false) (s : Str)
    (hc : c ∈ s) : c ∈ trimStr s := by
  unfold trimStr
  have h1 := mem_dropWhile_of_not _ _ h s hc
  have h2 := mem_dropWhile_of_not _ _ h _ (List.mem_reverse.mpr h1)
  exact List.mem_reverse.mpr h2

theorem trimStr_eq_nil_of_all_white (s : Str)
    (h : ∀ c ∈ s, isJsWhite c = true) : trimStr s = [] := by
  unfold trimStr
  rw [dropWhile_nil_of_all _ s h]
  rfl

theorem trimStr_ne_nil_trans (s : Str) (h : trimStr s ≠ []) :
    trimStr (trimStr s) ≠ [] := by
  by_cases hall : ∀ c ∈ s, isJsWhite c = true
  · exact absurd (trimStr_eq_nil_of_all_white s hall) h
  · push_neg at hall
    obtain ⟨c, hcs, hcw⟩ := hall
    have hcf : isJsWhite c = false := by simpa using hcw
    have h1 := mem_trimStr c hcf s hcs
    have h2 := mem_trimStr c hcf _ h1
    intro hnil
    rw [hnil] at h2
    cases h2

/-! ### Helper lemmas about step lengths -/

theorem le_length_clarityPrepend (s : Str) : s.length ≤ (clarityPrepend s).length := by
  unfold clarityPrepend
  split
  · simp [List.length_append]
  · exact le_rfl

theorem le_length_clarityAppend (s : Str) : s.length ≤ (clarityAppend s).length := by
  unfold clarityAppend
  split
  · simp [List.length_append]
  · exact le_rfl

theorem le_length_contextPrepend (s : Str) : s.length ≤ (contextPrepend s).length := by
  unfold contextPrepend
  split
  · simp [List.length_append]
  · exact le_rfl

theorem le_length_contextAppend (s : Str) : s.length ≤ (contextAppend s).length := by
  unfold contextAppend
  split
  · simp [List.length_append]
  · exact le_rfl

theorem le_length_structAppendOrganize (s : Str) :
    s.length ≤ (structAppendOrganize s).length := by
  unfold structAppendOrganize
  split
  · simp [List.length_append]
  · exact le_rfl

theorem le_length_structAppendSummary (s : Str) :
    s.length ≤ (structAppendSummary s).length := by
  unfold structAppendSummary
  split
  · simp [List.length_append]
  · exact le_rfl

theorem le_length_enhanceClarityLogic (s : Str) :
    s.length ≤ (enhanceClarityLogic s).length := by
  show s.length ≤ (clarityAppend (clarityPrepend s)).length
  exact le_trans (le_length_clarityPrepend s) (le_length_clarityAppend _)

theorem le_length_addContextLogic (s : Str) :
    s.length ≤ (addContextLogic s).length := by
  show s.length ≤ (contextAppend (contextPrepend s)).length
  exact le_trans (le_length_contextPrepend s) (le_length_contextAppend _)

theorem le_length_improveStructureLogic (s : Str) :
    s.length ≤ (improveStructureLogic s).length := by
  show s.length ≤ (structAppendSummary (structAppendOrganize s)).length
  exact le_trans (le_length_structAppendOrganize s) (le_length_structAppendSummary _)

theorem le_length_stepIte (b : Bool) (f : Str → Str)
    (hf : ∀ t : Str, t.length ≤ (f t).length) (s : Str) :
    s.length ≤ (if b then f s else s).length := by
  cases b
  · exact le_rfl
  · exact hf s

/-- C1: for every prompt that is non-empty after trimming and every
options combination, `processEnhancement` (a total function in this
model, hence terminating) returns a string at least as long as its
input: every enabled step only prepends or appends text. -/
theorem processEnhancement_length_ge (prompt : Str) (o : Options)
    (_h : trimStr prompt ≠ []) :
    prompt.length ≤ (processEnhancement prompt o).length := by
  unfold processEnhancement processEnhancementSteps
  refine le_trans (le_length_stepIte o.enhanceClarity _ le_length_enhanceClarityLogic prompt)
    (le_trans (le_length_stepIte o.addContext _ le_length_addContextLogic _)
      (le_length_stepIte o.improveStructure _ le_length_improveStructureLogic _))

/-- Witness for C1 at a concrete input. -/
theorem processEnhancement_length_ge_witness :
    ("hi".toList).length ≤ (processEnhancement ("hi".toList) ⟨true, true, true⟩).length :=
  processEnhancement_length_ge ("hi".toList) ⟨true, true, true⟩ (by decide)

/-! ### Guard-suppression lemmas: a present guard phrase disables its insertion -/

theorem clarityPrepend_suppressed (t : Str)
    (h : (ci t gPlease || ci t gCouldYou) = true) : clarityPrepend t = t := by
  unfold clarityPrepend
  rw [h]
  rfl

theorem clarityAppend_suppressed (e : Str)
    (h : (ci e gFormat || ci e gOutput) = true) : clarityAppend e = e := by
  unfold clarityAppend
  rw [h]
  rfl

theorem contextPrepend_suppressed (t : Str)
    (h : (ci t gAsA || ci t gActingAs) = true) : contextPrepend t = t := by
  unfold contextPrepend
  rw [h]
  rfl

theorem contextAppend_suppressed (e : Str)
    (h : (ci e gFor || ci e gTargeting) = true) : contextAppend e = e := by
  unfold contextAppend
  rw [h]
  rfl

theorem structAppendOrganize_suppressed (t : Str)
    (h : (ci t gList || ci t gBullet || ci t gStep) = true) :
    structAppendOrganize t = t := by
  unfold structAppendOrganize
  rw [h]
  rfl

theorem structAppendSummary_suppressed (e : Str)
    (h : (ci e gSummary || ci e gConclusion) = true) :
    structAppendSummary e = e := by
  unfold structAppendSummary
  rw [h]
  rfl

theorem ci_clarityPrepend (t pat : Str) (h : ci t pat = true) :
    ci (clarityPrepend t) pat = true := by
  unfold clarityPrepend
  split
  · exact ci_append_left t sPleasePre pat h
  · exact h

theorem ci_contextPrepend (t pat : Str) (h : ci t pat = true) :
    ci (contextPrepend t) pat = true := by
  unfold contextPrepend
  split
  · exact ci_append_left t sContextPre pat h
  · exact h

theorem ci_structAppendOrganize (t pat : Str) (h : ci t pat = true) :
    ci (structAppendOrganize t) pat = true := by
  unfold structAppendOrganize
  split
  · exact ci_append_right t sStructOrganize pat h
  · exact h

theorem clarity_no_prepend (t : Str)
    (h : (ci t gPlease || ci t gCouldYou) = true) :
    enhanceClarityLogic t = clarityAppend t := by
  show clarityAppend (clarityPrepend t) = clarityAppend t
  rw [clarityPrepend_suppressed t h]

theorem clarity_no_append (t : Str)
    (h : (ci t gFormat || ci t gOutput) = true) :
    enhanceClarityLogic t = clarityPrepend t := by
  show clarityAppend (clarityPrepend t) = clarityPrepend t
  apply clarityAppend_suppressed
  rw [Bool.or_eq_true] at h ⊢
  rcases h with h1 | h2
  · exact Or.inl (ci_clarityPrepend t gFormat h1)
  · exact Or.inr (ci_clarityPrepend t gOutput h2)

theorem context_no_prepend (t : Str)
    (h : (ci t gAsA || ci t gActingAs) = true) :
    addContextLogic t = contextAppend t := by
  show contextAppend (contextPrepend t) = contextAppend t
  rw [contextPrepend_suppressed t h]

theorem context_no_append (t : Str)
    (h : (ci t gFor || ci t gTargeting) = true) :
    addContextLogic t = contextPrepend t := by
  show contextAppend (contextPrepend t) = contextPrepend t
  apply contextAppend_suppressed
  rw [Bool.or_eq_true] at h ⊢
  rcases h with h1 | h2
  · exact Or.inl (ci_contextPrepend t gFor h1)
  · exact Or.inr (ci_contextPrepend t gTargeting h2)

theorem structure_no_organize (t : Str)
    (h : (ci t gList || ci t gBullet || ci t gStep) = true) :
    improveStructureLogic t = structAppendSummary t := by
  show structAppendSummary (structAppendOrganize t) = structAppendSummary t
  rw [structAppendOrganize_suppressed t h]

theorem structure_no_summary (t : Str)
    (h : (ci t gSummary || ci t gConclusion) = true) :
    improveStructureLogic t = structAppendOrganize t := by
  show structAppendSummary (structAppendOrganize t) = structAppendOrganize t
  apply structAppendSummary_suppressed
  rw [Bool.or_eq_true] at h ⊢
  rcases h with h1 | h2
  · exact Or.inl (ci_structAppendOrganize t gSummary h1)
  · exact Or.inr (ci_structAppendOrganize t gConclusion h2)

/-- C3: each insertion of the three steps is suppressed whenever one of
that insertion's guard substrings is already present
(case-insensitively) in the text at the point where the guard is
evaluated; in particular a `processEnhancement` output that already
contains "please" is not prefixed with "Please " again on a second
application.  For the two insertions whose guard is re-evaluated on the
partially transformed text, presence of the guard phrase in the step's
input is preserved by the preceding insertion, so it still suppresses. -/
theorem guard_suppression :
    (∀ t : Str,
       ((ci t gPlease || ci t gCouldYou) = true →
          enhanceClarityLogic t = clarityAppend t) ∧
       ((ci t gFormat || ci t gOutput) = true →
          enhanceClarityLogic t = clarityPrepend t) ∧
       ((ci t gAsA || ci t gActingAs) = true →
          addContextLogic t = contextAppend t) ∧
       ((ci t gFor || ci t gTargeting) = true →
          addContextLogic t = contextPrepend t) ∧
       ((ci t gList || ci t gBullet || ci t gStep) = true →
          improveStructureLogic t = structAppendSummary t) ∧
       ((ci t gSummary || ci t gConclusion) = true →
          improveStructureLogic t = structAppendOrganize t)) ∧
    (∀ (s : Str) (o : Options), ci (processEnhancement s o) gPlease = true →
       enhanceClarityLogic (processEnhancement s o) =
         clarityAppend (processEnhancement s o)) := by
  constructor
  · intro t
    exact ⟨clarity_no_prepend t, clarity_no_append t, context_no_prepend t,
      context_no_append t, structure_no_organize t, structure_no_summary t⟩
  · intro s o h
    apply clarity_no_prepend
    rw [Bool.or_eq_true]
    exact Or.inl h

/-- Witness for C3 at concrete inputs: "please format this" suppresses
the clarity prepend, "step summary" suppresses the structure organize
insertion. -/
theorem guard_suppression_witness :
    enhanceClarityLogic ("please format this".toList) =
        clarityAppend ("please format this".toList) ∧
      improveStructureLogic ("step summary".toList) =
        structAppendSummary ("step summary".toList) :=
  ⟨(guard_suppression.1 ("please format this".toList)).1 (by decide),
   (guard_suppression.1 ("step summary".toList)).2.2.2.2.1 (by decide)⟩

/-- C4: the `try`/`catch` wrapper shared by the three step functions
returns its input unchanged whenever the step body raises; the actual
step bodies are total (pure string operations that always succeed), so
the `catch`/`throw` branch of `processEnhancement` is unreachable and
the rewriter never produces a fatal error. -/
theorem step_fault_containment :
    (∀ (body : Str → Except Str Str) (p e : Str), body p = Except.error e →
       stepWithCatch body p = p) ∧
    (∀ p : Str,
       enhanceClarityBody p = Except.ok (clarityAppend (clarityPrepend p)) ∧
       addContextBody p = Except.ok (contextAppend (contextPrepend p)) ∧
       improveStructureBody p = Except.ok (structAppendSummary (structAppendOrganize p))) ∧
    (∀ (p : Str) (o : Options),
       processEnhancementE p o = Except.ok (processEnhancement p o)) := by
  refine ⟨?_, ?_, ?_⟩
  · intro body p e h
    unfold stepWithCatch
    rw [h]
  · intro p
    exact ⟨rfl, rfl, rfl⟩
  · intro p o
    rfl

/-- Witness for C4: a step whose body throws returns its input unchanged. -/
theorem step_fault_containment_witness :
    stepWithCatch (fun _ => Except.error procErrMsg) ("x".toList) = "x".toList :=
  step_fault_containment.1 (fun _ => Except.error procErrMsg) ("x".toList) procErrMsg rfl

/-- C5: a prompt that is empty or whitespace-only is answered with the
fixed failure response (success `false`, the error string, no enhanced
prompt and no stats — the rewriting steps are never consulted and no
retry is triggered, as the branch returns immediately); a prompt that is
non-empty after trimming never takes this rejection branch. -/
theorem handler_empty_prompt_rejection (prompt : Str) (o : Options) :
    (trimStr prompt = [] →
       handlePromptEnhancement prompt o =
         { success := false, enhancedPrompt := none, stats := none,
           error := some errNoPrompt }) ∧
    (trimStr prompt ≠ [] →
       (handlePromptEnhancement prompt o).success = true ∧
         (handlePromptEnhancement prompt o).error = none) := by
  constructor
  · intro h
    unfold handlePromptEnhancement
    rw [if_pos (Or.inr h)]
  · intro h
    have hne : ¬(prompt = [] ∨ trimStr prompt = []) := by
      rintro (rfl | h2)
      · exact h rfl
      · exact h h2
    unfold handlePromptEnhancement
    rw [if_neg hne]
    exact ⟨rfl, rfl⟩

/-- Witness for C5: a whitespace-only prompt is rejected, a non-blank
prompt is not. -/
theorem handler_empty_prompt_rejection_witness :
    handlePromptEnhancement ("   ".toList) ⟨true, true, false⟩ =
        { success := false, enhancedPrompt := none, stats := none,
          error := some errNoPrompt } ∧
      (handlePromptEnhancement ("hi".toList) ⟨true, true, false⟩).success = true :=
  ⟨(handler_empty_prompt_rejection ("   ".toList) ⟨true, true, false⟩).1 (by decide),
   ((handler_empty_prompt_rejection ("hi".toList) ⟨true, true, false⟩).2 (by decide)).1⟩

/-- C6: for every accepted prompt the `improvement` field of the
response stats is the rounded percentage
`round((enhancedLength - originalLength) / originalLength * 100)` over
the exact character counts of the original and the fully transformed
text; in particular the formula yields 25 for original length 20 and
enhanced length 25. -/
theorem improvement_formula :
    (∀ (prompt : Str) (o : Options), ¬(prompt = [] ∨ trimStr prompt = []) →
       (handlePromptEnhancement prompt o).stats = some
         { originalLength := prompt.length,
           enhancedLength := (processEnhancement prompt o).length,
           improvement := jsRound
             ((((processEnhancement prompt o).length : ℚ) - (prompt.length : ℚ))
               / (prompt.length : ℚ) * 100) }) ∧
    jsRound ((((25 : ℚ) - 20) / 20) * 100) = 25 := by
  constructor
  · intro prompt o h
    unfold handlePromptEnhancement
    rw [if_neg h]
  · unfold jsRound
    norm_num

/-- Witness for C6 at a concrete accepted prompt. -/
theorem improvement_formula_witness :
    (handlePromptEnhancement ("hi".toList) ⟨false, false, false⟩).stats = some
      { originalLength := ("hi".toList).length,
        enhancedLength := (processEnhancement ("hi".toList) ⟨false, false, false⟩).length,
        improvement := jsRound
          ((((processEnhancement ("hi".toList) ⟨false, false, false⟩).length : ℚ)
              - (("hi".toList).length : ℚ)) / (("hi".toList).length : ℚ) * 100) } :=
  improvement_formula.1 ("hi".toList) ⟨false, false, false⟩ (by decide)

/-- C9: when the modal textarea trims to the empty string the content
script substitutes "Hello world" for the prompt, and whatever the
textarea holds, the prompt it sends never triggers the background
handler's empty-prompt rejection branch. -/
theorem modal_prompt_fallback (v : Str) (o : Options) :
    (trimStr v = [] → modalPrompt v = helloWorld) ∧
    (handlePromptEnhancement (modalPrompt v) o).success = true := by
  constructor
  · intro h
    unfold modalPrompt
    rw [if_pos h]
  · have key : ¬(modalPrompt v = [] ∨ trimStr (modalPrompt v) = []) := by
      unfold modalPrompt
      by_cases h : trimStr v = []
      · rw [if_pos h]
        decide
      · rw [if_neg h]
        rintro (h1 | h2)
        · exact h h1
        · exact trimStr_ne_nil_trans v h h2
    unfold handlePromptEnhancement
    rw [if_neg key]

/-- Witness for C9 at a whitespace-only textarea value. -/
theorem modal_prompt_fallback_witness :
    modalPrompt ("  ".toList) = helloWorld ∧
      (handlePromptEnhancement (modalPrompt ("  ".toList)) ⟨true, true, false⟩).success = true :=
  ⟨(modal_prompt_fallback ("  ".toList) ⟨true, true, false⟩).1 (by decide),
   (modal_prompt_fallback ("  ".toList) ⟨true, true, false⟩).2⟩

theorem logUsage_totals (st : StorageState) (a : Str) (d : LogData) (ts : Nat)
    (h : st.totalPrompts = st.totalEnhancements) :
    (logUsage st a d ts).totalPrompts = (logUsage st a d ts).totalEnhancements := by
  simp only [logUsage]
  split
  · simp [h]
  · exact h

theorem applyCalls_totals (calls : List (Str × LogData × Nat)) :
    ∀ st : StorageState, st.totalPrompts = st.totalEnhancements →
      (applyCalls st calls).totalPrompts = (applyCalls st calls).totalEnhancements := by
  induction calls with
  | nil => intro st h; exact h
  | cons c t ih =>
    intro st h
    show (applyCalls (logUsage st c.1 c.2.1 c.2.2) t).totalPrompts =
      (applyCalls (logUsage st c.1 c.2.1 c.2.2) t).totalEnhancements
    exact ih _ (logUsage_totals st c.1 c.2.1 c.2.2 h)

/-- C10: starting from the initial storage (both counters 0), every
sequence of `logUsage` calls keeps `totalPrompts` equal to
`totalEnhancements`: both counters are incremented together by exactly 1
on a `prompt_enhanced` action and both are untouched by every other
action. -/
theorem totals_invariant :
    (∀ calls : List (Str × LogData × Nat),
       (applyCalls initialState calls).totalPrompts =
         (applyCalls initialState calls).totalEnhancements) ∧
    (∀ (st : StorageState) (a : Str) (d : LogData) (ts : Nat), a = peAction →
       (logUsage st a d ts).totalPrompts = st.totalPrompts + 1 ∧
         (logUsage st a d ts).totalEnhancements = st.totalEnhancements + 1) ∧
    (∀ (st : StorageState) (a : Str) (d : LogData) (ts : Nat), a ≠ peAction →
       (logUsage st a d ts).totalPrompts = st.totalPrompts ∧
         (logUsage st a d ts).totalEnhancements = st.totalEnhancements) := by
  refine ⟨fun calls => applyCalls_totals calls initialState rfl, ?_, ?_⟩
  · intro st a d ts h
    simp [logUsage, h]
  · intro st a d ts h
    simp [logUsage, h]

/-- Witness for C10: one `prompt_enhanced` call bumps both counters from
0 to 1, one `settings_updated` call leaves both unchanged. -/
theorem totals_invariant_witness :
    ((logUsage initialState peAction [] 7).totalPrompts = initialState.totalPrompts + 1 ∧
       (logUsage initialState peAction [] 7).totalEnhancements =
         initialState.totalEnhancements + 1) ∧
      (logUsage initialState ("settings_updated".toList) [] 7).totalPrompts =
        initialState.totalPrompts :=
  ⟨totals_invariant.2.1 initialState peAction [] 7 rfl,
   (totals_invariant.2.2 initialState ("settings_updated".toList) [] 7 (by decide)).1⟩

/-- C8 (code bug): with one expired entry (30 days past the retention
horizon) and one fresh entry under a single action, the filtered list is
non-empty, so no key is deleted, the `cleaned` flag stays `false`, and
`cleanupOldUsageData` writes nothing back: the expired entry survives in
storage, contradicting the claim that cleanup removes exactly the
entries older than the 30-day horizon. -/
theorem cleanup_skips_expired_entries :
    staleEntry.timestamp + dataRetentionDays * msPerDay ≤ 2678400000 ∧
      cleanupOldUsageData staleState 2678400000 = staleState ∧
      staleEntry ∈ getAction (cleanupOldUsageData staleState 2678400000).usageStats peAction := by
  refine ⟨by decide, ?_, ?_⟩
  · decide
  · decide
